import Mathlib

/-!
Verification development for the VideoPlayer widget (src/VideoPlayer.tsx,
src/App.tsx).

The component is shallowly embedded as follows.

Numbers: media times, durations, volumes and playback rates are embedded
as rationals.  The one computation where JavaScript number semantics is
load-bearing — the scrub fraction currentTime / duration, which in JS
yields NaN or an infinity when duration is 0 — is embedded through the
type JSNum, which adjoins NaN and the two infinities to the rationals,
together with JS division, multiplication and the "|| 0" guard.

State and events: the React component state (useState hooks) becomes the
PlayerState record; its event handlers and effect bodies become the step
function from (props, state, event) to (state, commands), where commands
are the imperative calls issued to the underlying media element
(play, pause, assignments to currentTime).  The seekOperation useEffect
is modelled separately as runSeekEffects, which replays React's rule that
an effect body re-runs exactly when its dependency list changed between
consecutive renders (and on mount); object identity of the host-created
seek request objects is represented by their token stamp.

timeToSecs lives in src/utils which is not part of the sources; it is
modelled from the spec (see its doc comment).
-/

/-- Modelled from the spec: the repository imports timeToSecs from
src/utils, which is missing from the sources.  Per the spec a timecode
entry's time is a formatted position string such as "1:23" and the list
is ordered by its numeric seconds equivalent, so the model parses the
colon-separated components as base-60 digits.  This helper accumulates
the components of the character list. -/
def timeParts (cs : List Char) (cur : ℕ) : List ℕ :=
  match cs with
  | [] => [cur]
  | c :: rest =>
    if c = ':' then cur :: timeParts rest 0
    else timeParts rest (cur * 10 + (c.toNat - 48))

/-- Modelled from the spec: seconds equivalent of a formatted time string,
for example timeToSecs "1:23" = 83. -/
def timeToSecs (s : String) : ℚ :=
  (((timeParts s.data 0).foldl (fun a b => a * 60 + b) 0 : ℕ) : ℚ)

/-- Timecode entry as used by the selection logic: the formatted time and
the optional caption text (the value / objects fields play no role in the
claims about selection and are omitted). -/
structure Timecode where
  time : String
  text : Option String := none
deriving DecidableEq

/-- Embeds timecodeListReversed = useMemo(() => timecodeList?.toReversed(), ...)
for a present list. -/
def timecodeListReversed (timecodeList : List Timecode) : List Timecode :=
  timecodeList.reverse

/-- Embeds the currentData computation in updateTime:
timecodeListReversed.find((t) => timeToSecs(t.time) <= video.currentTime). -/
def findCurrentData (timecodeList : List Timecode) (currentTime : ℚ) : Option Timecode :=
  (timecodeListReversed timecodeList).find? (fun t => timeToSecs t.time ≤ currentTime)

/-- Example list from the spec: entries at 0:05, 0:10 and 0:20. -/
def exList : List Timecode :=
  [⟨"0:05", none⟩, ⟨"0:10", none⟩, ⟨"0:20", none⟩]

/-- The rational one half, written as a normalized fraction so that the
kernel can evaluate comparisons against it.  It embeds the JS literal 0.5. -/
def half : ℚ := ⟨1, 2, by norm_num, by norm_num⟩

/-- The rational three halves, embedding the JS literal 1.5. -/
def threeHalves : ℚ := ⟨3, 2, by norm_num, by norm_num⟩

/-- Embeds const rates = [0.5, 1, 1.5, 2] from cyclePlaybackRate. -/
def rates : List ℚ := [half, 1, threeHalves, 2]

/-- Embeds JavaScript Array.prototype.indexOf: index of the first
occurrence, or -1 when the value does not occur. -/
def jsIndexOf (l : List ℚ) (x : ℚ) : Int :=
  match l with
  | [] => -1
  | a :: rest =>
    if a = x then 0
    else if jsIndexOf rest x = -1 then -1 else jsIndexOf rest x + 1

/-- Embeds cyclePlaybackRate:
const nextIndex = (rates.indexOf(playbackRate) + 1) % rates.length;
setPlaybackRate(rates[nextIndex]). -/
def cyclePlaybackRate (playbackRate : ℚ) : ℚ :=
  rates.getD ((jsIndexOf rates playbackRate + 1) % (rates.length : Int)).toNat 0

/-- JavaScript number semantics restricted to what the fraction
computation can produce: a finite rational, NaN, or an infinity. -/
inductive JSNum where
  | num (q : ℚ)
  | nan
  | inf
  | negInf
deriving DecidableEq

/-- Embeds JS division of two finite numbers: division by zero yields NaN
for a zero numerator and a signed infinity otherwise. -/
def jsDivQ (a b : ℚ) : JSNum :=
  if b = 0 then (if a = 0 then JSNum.nan else if 0 < a then JSNum.inf else JSNum.negInf)
  else JSNum.num (a / b)

/-- Embeds JS multiplication on JSNum values (0 times an infinity is NaN). -/
def jsMul : JSNum → JSNum → JSNum
  | JSNum.nan, _ => JSNum.nan
  | _, JSNum.nan => JSNum.nan
  | JSNum.num a, JSNum.num b => JSNum.num (a * b)
  | JSNum.num a, JSNum.inf =>
    if a = 0 then JSNum.nan else if 0 < a then JSNum.inf else JSNum.negInf
  | JSNum.num a, JSNum.negInf =>
    if a = 0 then JSNum.nan else if 0 < a then JSNum.negInf else JSNum.inf
  | JSNum.inf, JSNum.num b =>
    if b = 0 then JSNum.nan else if 0 < b then JSNum.inf else JSNum.negInf
  | JSNum.negInf, JSNum.num b =>
    if b = 0 then JSNum.nan else if 0 < b then JSNum.negInf else JSNum.inf
  | JSNum.inf, JSNum.inf => JSNum.inf
  | JSNum.inf, JSNum.negInf => JSNum.negInf
  | JSNum.negInf, JSNum.inf => JSNum.negInf
  | JSNum.negInf, JSNum.negInf => JSNum.inf

/-- Embeds JS truthiness of a number: 0 and NaN are falsy. -/
def truthy : JSNum → Bool
  | JSNum.num q => q ≠ 0
  | JSNum.nan => false
  | JSNum.inf => true
  | JSNum.negInf => true

/-- Embeds the JS expression a || b. -/
def jsOr (a b : JSNum) : JSNum :=
  if truthy a then a else b

/-- Embeds const currentSecs = duration * scrubberTime || 0. -/
def currentSecs (duration : ℚ) (scrubberTime : JSNum) : JSNum :=
  jsOr (jsMul (JSNum.num duration) scrubberTime) (JSNum.num 0)

/-- Embeds the scrubber input value, value={scrubberTime || 0}. -/
def sliderValue (scrubberTime : JSNum) : JSNum :=
  jsOr scrubberTime (JSNum.num 0)

/-- The component state held in the useState hooks of VideoPlayer. -/
structure PlayerState where
  duration : ℚ
  scrubberTime : JSNum
  isPlaying : Bool
  isScrubbing : Bool
  currentData : Option Timecode
  volume : ℚ
  isMuted : Bool
  playbackRate : ℚ
deriving DecidableEq

/-- The useState initial values: duration 0, scrubberTime 0, not playing,
not scrubbing, no current data, volume 1, not muted, rate 1. -/
def initialState : PlayerState :=
  { duration := 0
    scrubberTime := JSNum.num 0
    isPlaying := false
    isScrubbing := false
    currentData := none
    volume := 1
    isMuted := false
    playbackRate := 1 }

/-- Imperative commands the handlers issue to the media element:
video.play(), video.pause(), and assignments to video.currentTime. -/
inductive Cmd where
  | play
  | pause
  | seek (t : ℚ)
deriving DecidableEq

/-- Embeds togglePlay: issues pause when the confirmed isPlaying flag is
true and play otherwise; the flag itself is not changed here. -/
def togglePlay (isPlaying : Bool) : List Cmd :=
  if isPlaying then [Cmd.pause] else [Cmd.play]

/-- Events the component reacts to: media-clock callbacks, user input on
the rendered elements, and a change of the url prop (which fires the
reset useEffect keyed on [url]). -/
inductive Ev where
  | urlChange
  | durationChange (d : ℚ)
  | timeUpdate (currentTime duration : ℚ)
  | playEvt
  | pauseEvt
  | videoClick
  | playButtonClick
  | scrubChange (v : ℚ)
  | scrubPointerDown
  | scrubPointerUp
  | muteClick
  | volumeChange (v : ℚ)
  | rateClick

/-- Embeds the updateTime handler: when not scrubbing, scrubberTime is
set to video.currentTime / video.duration (with JS division semantics);
when a timecode list is present, currentData is recomputed by scanning
the reversed list; a null list leaves currentData untouched. -/
def updateTime (timecodeList : Option (List Timecode)) (s : PlayerState)
    (currentTime duration : ℚ) : PlayerState :=
  let s1 := if s.isScrubbing then s else { s with scrubberTime := jsDivQ currentTime duration }
  match timecodeList with
  | some l => { s1 with currentData := findCurrentData l currentTime }
  | none => s1

/-- One step of the component: dispatches an event to the handler the
source attaches for it, returning the next state and the commands issued
to the media element.  The timecodeList prop is passed as environment. -/
def step (timecodeList : Option (List Timecode)) (s : PlayerState) :
    Ev → PlayerState × List Cmd
  | Ev.urlChange =>
    ({ s with
        scrubberTime := JSNum.num 0
        isPlaying := false
        playbackRate := 1
        currentData := none }, [])
  | Ev.durationChange d => ({ s with duration := d }, [])
  | Ev.timeUpdate ct d => (updateTime timecodeList s ct d, [])
  | Ev.playEvt => ({ s with isPlaying := true }, [])
  | Ev.pauseEvt => ({ s with isPlaying := false }, [])
  | Ev.videoClick => (s, togglePlay s.isPlaying)
  | Ev.playButtonClick => (s, togglePlay s.isPlaying)
  | Ev.scrubChange v =>
    ({ s with scrubberTime := JSNum.num v }, [Cmd.seek (v * s.duration)])
  | Ev.scrubPointerDown => ({ s with isScrubbing := true }, [])
  | Ev.scrubPointerUp => ({ s with isScrubbing := false }, [])
  | Ev.muteClick => ({ s with isMuted := !s.isMuted }, [])
  | Ev.volumeChange v => ({ s with volume := v, isMuted := decide (v = 0) }, [])
  | Ev.rateClick => ({ s with playbackRate := cyclePlaybackRate s.playbackRate }, [])

/-- Embeds the volume useEffect body video.volume = isMuted ? 0 : volume:
the volume actually applied to the media element. -/
def effectiveVolume (s : PlayerState) : ℚ :=
  if s.isMuted then 0 else s.volume

/-- Seek request created by App.jumpToTimecode: a fresh object carrying
the target time and a stamp.  The stamp represents the identity of the
object (jumpToTimecode builds a new object per call), which is what the
effect dependency comparison sees. -/
structure SeekRequest where
  time : ℚ
  token : ℕ
deriving DecidableEq

/-- Embeds the body of the seekOperation useEffect:
if (video && seekOperation) video.currentTime = seekOperation.time. -/
def seekEffect (video : Bool) (seekOperation : Option SeekRequest) : List ℚ :=
  if video then
    match seekOperation with
    | some r => [r.time]
    | none => []
  else []

/-- Replays React's effect rule over a sequence of renders with the video
element mounted throughout: the effect body runs on mount and whenever
the seekOperation dependency differs from the previous render's (object
identity, represented by the request's fields including its token).
The argument prev is the dependency value of the previous render, none
meaning not yet mounted.  Returns the seek targets written to
video.currentTime, in order. -/
def runSeekEffects (prev : Option (Option SeekRequest)) :
    List (Option SeekRequest) → List ℚ
  | [] => []
  | op :: rest =>
    (if prev = some op then [] else seekEffect true op) ++ runSeekEffects (some op) rest

/-- Focus target of a key event: the tag name the code inspects, plus
whether the element actually accepts text input (the capability the spec
speaks about; the code never reads it). -/
structure KeyTarget where
  tagName : String
  acceptsTextInput : Bool
deriving DecidableEq

/-- Key event as seen by the global keypress listener. -/
structure KeyEvent where
  target : KeyTarget
  key : String
deriving DecidableEq

/-- Embeds the onKeyPress handler: the toggle fires when the target's
tagName is neither INPUT nor TEXTAREA and the key is the spacebar. -/
def onKeyPress (e : KeyEvent) (isPlaying : Bool) : List Cmd :=
  if e.target.tagName ≠ "INPUT" ∧ e.target.tagName ≠ "TEXTAREA" ∧ e.key = " " then
    togglePlay isPlaying
  else []

/-- Modelled from the spec: the spec's rule that the spacebar toggles
unless the focus target is an editable text control identified by the
capability of accepting text input.  Stated only to compare the spec's
rule with the code's tag-name rule. -/
def keyToggleSpecRule (e : KeyEvent) (isPlaying : Bool) : List Cmd :=
  if e.key = " " ∧ e.target.acceptsTextInput = false then togglePlay isPlaying
  else []

/-! Helper lemmas. -/

lemma half_eq_div : half = 1 / 2 := by
  norm_num [half, Rat.mk'_eq_divInt, Rat.divInt_eq_div]

lemma threeHalves_eq_div : threeHalves = 3 / 2 := by
  norm_num [threeHalves, Rat.mk'_eq_divInt, Rat.divInt_eq_div]

lemma jsIndexOf_eq_neg_one (l : List ℚ) (x : ℚ) (h : x ∉ l) : jsIndexOf l x = -1 := by
  induction l with
  | nil => rfl
  | cons a rest ih =>
    have hax : ¬ a = x := by
      intro hax
      exact h (hax ▸ List.mem_cons_self a rest)
    have hrest : x ∉ rest := fun hm => h (List.mem_cons_of_mem a hm)
    simp [jsIndexOf, hax, ih hrest]

lemma findCurrentData_append_singleton (l : List Timecode) (a : Timecode) (c : ℚ) :
    findCurrentData (l ++ [a]) c =
      if timeToSecs a.time ≤ c then some a else findCurrentData l c := by
  by_cases hpa : timeToSecs a.time ≤ c
  · rw [if_pos hpa]
    simp only [findCurrentData, timecodeListReversed, List.reverse_append,
      List.reverse_singleton, List.singleton_append]
    rw [List.find?_cons_of_pos _ (by simpa using hpa)]
  · rw [if_neg hpa]
    simp only [findCurrentData, timecodeListReversed, List.reverse_append,
      List.reverse_singleton, List.singleton_append]
    rw [List.find?_cons_of_neg _ (by simpa using hpa)]

lemma findCurrentData_greatest (c : ℚ) (e : Timecode) :
    ∀ tl : List Timecode,
      (tl.map fun t => timeToSecs t.time).Pairwise (· ≤ ·) →
      findCurrentData tl c = some e →
      timeToSecs e.time ≤ c ∧
        ∀ e' ∈ tl, timeToSecs e'.time ≤ c → timeToSecs e'.time ≤ timeToSecs e.time := by
  intro tl
  induction tl using List.reverseRecOn with
  | nil => intro _ he; simp [findCurrentData, timecodeListReversed] at he
  | append_singleton l a ih =>
    intro hs he
    rw [List.map_append, List.pairwise_append] at hs
    obtain ⟨hl, -, hcross⟩ := hs
    rw [findCurrentData_append_singleton] at he
    by_cases hpa : timeToSecs a.time ≤ c
    · rw [if_pos hpa] at he
      obtain rfl : a = e := Option.some.inj he
      refine ⟨hpa, ?_⟩
      intro e' he' _
      rcases List.mem_append.mp he' with h | h
      · exact hcross _ (List.mem_map_of_mem _ h) _ (by simp)
      · obtain rfl : e' = a := by simpa using h
        exact le_refl _
    · rw [if_neg hpa] at he
      obtain ⟨h1, h2⟩ := ih hl he
      refine ⟨h1, ?_⟩
      intro e' he' hle
      rcases List.mem_append.mp he' with h | h
      · exact h2 e' h hle
      · obtain rfl : e' = a := by simpa using h
        exact absurd hle hpa

lemma findCurrentData_none (tl : List Timecode) (c : ℚ) :
    findCurrentData tl c = none ↔ ∀ e ∈ tl, c < timeToSecs e.time := by
  simp [findCurrentData, timecodeListReversed, List.find?_eq_none, not_le]

/-! Claim theorems. -/

/-- C1: for every timecode list ordered ascending by the seconds
equivalent of its entries and every currentTime, the entry selected on a
time update is the one with the greatest time value at most currentTime,
and none is selected when currentTime precedes the first entry; on the
example list with entries at 0:05, 0:10, 0:20, currentTime 12 selects
the 0:10 entry and currentTime 3 selects none. -/
theorem c1_current_data_selection :
    (∀ (tl : List Timecode) (c : ℚ),
        (tl.map fun t => timeToSecs t.time).Pairwise (· ≤ ·) →
        (∀ e, findCurrentData tl c = some e →
            timeToSecs e.time ≤ c ∧
              ∀ e' ∈ tl, timeToSecs e'.time ≤ c → timeToSecs e'.time ≤ timeToSecs e.time) ∧
        (findCurrentData tl c = none ↔ ∀ e ∈ tl, c < timeToSecs e.time))
    ∧ findCurrentData exList 12 = some ⟨"0:10", none⟩
    ∧ findCurrentData exList 3 = none :=
  ⟨fun tl c hs =>
    ⟨fun e he => findCurrentData_greatest c e tl hs he, findCurrentData_none tl c⟩,
   by decide, by decide⟩

/-- Witness for C1: the sortedness hypothesis holds for the example list,
and the theorem applied there yields the greatest-entry property at
currentTime 12 and the emptiness characterisation at currentTime 3. -/
theorem c1_witness :
    ((exList.map fun t => timeToSecs t.time).Pairwise (· ≤ ·))
    ∧ (∀ e, findCurrentData exList 12 = some e →
        timeToSecs e.time ≤ 12 ∧
          ∀ e' ∈ exList, timeToSecs e'.time ≤ 12 → timeToSecs e'.time ≤ timeToSecs e.time)
    ∧ (findCurrentData exList 3 = none ↔ ∀ e ∈ exList, 3 < timeToSecs e.time) :=
  ⟨by decide,
   (c1_current_data_selection.1 exList 12 (by decide)).1,
   (c1_current_data_selection.1 exList 3 (by decide)).2⟩

/-- C2 as amended: while isScrubbing is true a time update never
overwrites the scrub fraction; however each drag move (a change event on
the range input) updates the displayed fraction AND issues one seek of
fraction times duration, and releasing the pointer only clears
isScrubbing, issuing no seek. -/
theorem c2_scrub_amended :
    (∀ (tl : Option (List Timecode)) (s : PlayerState) (ct d : ℚ),
        s.isScrubbing = true →
        ((step tl s (Ev.timeUpdate ct d)).1).scrubberTime = s.scrubberTime)
    ∧ (∀ (tl : Option (List Timecode)) (s : PlayerState) (v : ℚ),
        step tl s (Ev.scrubChange v)
          = ({ s with scrubberTime := JSNum.num v }, [Cmd.seek (v * s.duration)]))
    ∧ (∀ (tl : Option (List Timecode)) (s : PlayerState),
        (step tl s Ev.scrubPointerDown).1.isScrubbing = true
          ∧ step tl s Ev.scrubPointerUp = ({ s with isScrubbing := false }, [])) := by
  refine ⟨?_, ?_, ?_⟩
  · intro tl s ct d hscrub
    cases tl <;> simp [step, updateTime, hscrub]
  · intro tl s v
    rfl
  · intro tl s
    exact ⟨rfl, rfl⟩

/-- Counterexample for C2 as stated: a drag move does issue a seek
command (the claim says it issues none), and the pointer-up ending the
drag issues no seek (the claim says it issues exactly one). -/
theorem c2_counterexample :
    (step none { initialState with duration := 20, isScrubbing := true }
        (Ev.scrubChange 1)).2 ≠ []
    ∧ (step none { initialState with duration := 20, isScrubbing := true }
        Ev.scrubPointerUp).2 = [] :=
  ⟨by decide, rfl⟩

/-- Witness for C2: a scrubbing state with a concrete time update, where
the amended theorem shows the fraction is untouched. -/
theorem c2_witness :
    ({ initialState with isScrubbing := true } : PlayerState).isScrubbing = true
    ∧ ((step none { initialState with isScrubbing := true }
          (Ev.timeUpdate 7 10)).1).scrubberTime
        = ({ initialState with isScrubbing := true } : PlayerState).scrubberTime :=
  ⟨rfl, c2_scrub_amended.1 none { initialState with isScrubbing := true } 7 10 rfl⟩

/-- C3: a seek request whose dependency value differs from the previous
render's is applied exactly once with its own time, a render repeating
the previous request object applies nothing, and two requests with
distinct tokens but identical time yield two seek commands. -/
theorem c3_seek_token_semantics :
    (∀ (prev : Option (Option SeekRequest)) (r : SeekRequest)
        (rest : List (Option SeekRequest)),
        prev ≠ some (some r) →
        runSeekEffects prev (some r :: rest)
          = r.time :: runSeekEffects (some (some r)) rest)
    ∧ (∀ (r : SeekRequest) (rest : List (Option SeekRequest)),
        runSeekEffects (some (some r)) (some r :: rest)
          = runSeekEffects (some (some r)) rest)
    ∧ (∀ (t : ℚ) (tk tk' : ℕ), tk ≠ tk' →
        runSeekEffects none [some ⟨t, tk⟩, some ⟨t, tk'⟩] = [t, t]) := by
  refine ⟨?_, ?_, ?_⟩
  · intro prev r rest hne
    simp [runSeekEffects, seekEffect, hne]
  · intro r rest
    simp [runSeekEffects]
  · intro t tk tk' hne
    have h1 : (none : Option (Option SeekRequest)) ≠ some (some ⟨t, tk⟩) := by simp
    have h2 : (some (some (⟨t, tk⟩ : SeekRequest)) : Option (Option SeekRequest))
        ≠ some (some ⟨t, tk'⟩) := by simp [hne]
    simp [runSeekEffects, seekEffect, h1, h2]

/-- Witness for C3: the spec's example, seek to time 30 stamped 100 then
seek to time 30 stamped 101, produces two seek commands to time 30. -/
theorem c3_witness :
    ((100 : ℕ) ≠ 101)
    ∧ runSeekEffects none [some ⟨(30 : ℚ), 100⟩, some ⟨30, 101⟩] = [30, 30] :=
  ⟨by decide, c3_seek_token_semantics.2.2 30 100 101 (by decide)⟩

/-- C4 as amended: a url change resets scrubberTime, isPlaying,
playbackRate and currentData to their defaults (duration, volume and
isMuted are untouched); but there is no identity check against the
current source: a time update processed after the reset is handled by
the ordinary updateTime logic and overwrites the reset state. -/
theorem c4_url_reset_amended :
    (∀ (tl : Option (List Timecode)) (s : PlayerState),
        step tl s Ev.urlChange
          = ({ s with
                scrubberTime := JSNum.num 0
                isPlaying := false
                playbackRate := 1
                currentData := none }, []))
    ∧ (∀ (l : List Timecode) (s : PlayerState) (ct d : ℚ),
        s.isScrubbing = false →
        (step (some l) s (Ev.timeUpdate ct d)).1
          = { s with
                scrubberTime := jsDivQ ct d
                currentData := findCurrentData l ct }) := by
  constructor
  · intro tl s
    rfl
  · intro l s ct d h
    simp [step, updateTime, h]

/-- Counterexample for C4 as stated: right after the url-change reset, a
time update (such as a pending event of the old source) overwrites both
the reset scrub fraction and the reset current data, because updateTime
performs no identity check against the current source. -/
theorem c4_counterexample :
    ((step (some exList) ((step (some exList) initialState Ev.urlChange).1)
        (Ev.timeUpdate 10 20)).1).scrubberTime ≠ JSNum.num 0
    ∧ ((step (some exList) ((step (some exList) initialState Ev.urlChange).1)
        (Ev.timeUpdate 10 20)).1).currentData ≠ none := by
  constructor
  · norm_num [step, updateTime, initialState, jsDivQ]
  · decide

/-- Witness for C4: the second part of the amended theorem applied to the
freshly reset state, which is not scrubbing. -/
theorem c4_witness :
    initialState.isScrubbing = false
    ∧ (step (some exList) initialState (Ev.timeUpdate 10 20)).1
        = { initialState with
              scrubberTime := jsDivQ 10 20
              currentData := findCurrentData exList 10 } :=
  ⟨rfl, c4_url_reset_amended.2 exList initialState 10 20 rfl⟩

/-- C5 as amended: for a positive duration and a current time between 0
and the duration the computed fraction is a rational in the unit
interval; but the division itself is not guarded: with duration 0 (and
current time 0, the only value a source without metadata reports) the
stored fraction is NaN, and it is the consumers currentSecs
(duration * scrubberTime || 0) and the slider value (scrubberTime || 0)
whose JS or-guards turn that into a displayed 0. -/
theorem c5_fraction_amended :
    (∀ ct d : ℚ, 0 ≤ ct → ct ≤ d → 0 < d →
        ∃ q : ℚ, jsDivQ ct d = JSNum.num q ∧ 0 ≤ q ∧ q ≤ 1)
    ∧ jsDivQ 0 0 = JSNum.nan
    ∧ (∀ d : ℚ, currentSecs d JSNum.nan = JSNum.num 0)
    ∧ sliderValue JSNum.nan = JSNum.num 0 := by
  refine ⟨?_, by decide, fun d => rfl, by decide⟩
  intro ct d h0 hle hd
  refine ⟨ct / d, ?_, div_nonneg h0 (le_of_lt hd), ?_⟩
  · simp [jsDivQ, hd.ne']
  · rw [div_le_one hd]
    exact hle

/-- Counterexample for C5 as stated: a time update arriving with
duration 0 stores NaN, not 0, as the scrub fraction. -/
theorem c5_counterexample :
    ((step none initialState (Ev.timeUpdate 0 0)).1).scrubberTime = JSNum.nan
    ∧ JSNum.nan ≠ JSNum.num 0 :=
  ⟨by decide, by decide⟩

/-- Witness for C5: currentTime 1 and duration 2 satisfy the range
hypotheses, and the amended theorem produces the in-range fraction. -/
theorem c5_witness :
    ((0 : ℚ) ≤ 1 ∧ (1 : ℚ) ≤ 2 ∧ (0 : ℚ) < 2)
    ∧ (∃ q : ℚ, jsDivQ 1 2 = JSNum.num q ∧ 0 ≤ q ∧ q ≤ 1) :=
  ⟨⟨by decide, by decide, by decide⟩,
   c5_fraction_amended.1 1 2 (by decide) (by decide) (by decide)⟩

/-- C6 as amended: when a timecode list is present, every time update
recomputes currentData purely from the current list and currentTime,
with no dependence on the previously stored value; but when the list is
absent, the time update leaves the previous currentData in place, so an
entry selected from a since-removed list persists until the next
url-change reset. -/
theorem c6_derived_amended :
    (∀ (l : List Timecode) (s : PlayerState) (ct d : ℚ),
        ((step (some l) s (Ev.timeUpdate ct d)).1).currentData = findCurrentData l ct)
    ∧ (∀ (s : PlayerState) (ct d : ℚ),
        ((step none s (Ev.timeUpdate ct d)).1).currentData = s.currentData) := by
  constructor
  · intro l s ct d
    by_cases h : s.isScrubbing <;> simp [step, updateTime, h]
  · intro s ct d
    by_cases h : s.isScrubbing <;> simp [step, updateTime, h]

/-- Counterexample for C6 as stated: with the timecode list removed, a
time update leaves a stale entry displayed, while the pure selection on
the current (empty) list yields none. -/
theorem c6_counterexample :
    ((step none { initialState with currentData := some ⟨"0:05", none⟩ }
        (Ev.timeUpdate 50 100)).1).currentData = some ⟨"0:05", none⟩
    ∧ ((step none { initialState with currentData := some ⟨"0:05", none⟩ }
        (Ev.timeUpdate 50 100)).1).currentData ≠ none
    ∧ findCurrentData [] 50 = none :=
  ⟨by decide, by decide, rfl⟩

/-- C7: cyclePlaybackRate advances 1 to 1.5 to 2 to 0.5 and back to 1;
four applications restore any rate in the fixed set; a rate outside the
set is sent to the element at index 0, namely 0.5, via indexOf
returning -1. -/
theorem c7_cycle_rate :
    (cyclePlaybackRate 1 = 3 / 2 ∧ cyclePlaybackRate (3 / 2) = 2
      ∧ cyclePlaybackRate 2 = 1 / 2 ∧ cyclePlaybackRate (1 / 2) = 1)
    ∧ (∀ r ∈ rates,
        cyclePlaybackRate (cyclePlaybackRate (cyclePlaybackRate (cyclePlaybackRate r))) = r)
    ∧ (∀ r : ℚ, r ∉ rates → cyclePlaybackRate r = 1 / 2) := by
  refine ⟨⟨?_, ?_, ?_, ?_⟩, ?_, ?_⟩
  · rw [← threeHalves_eq_div]
    decide
  · rw [← threeHalves_eq_div]
    decide
  · rw [← half_eq_div]
    decide
  · rw [← half_eq_div]
    decide
  · intro r hr
    simp only [rates, List.mem_cons, List.not_mem_nil, or_false] at hr
    rcases hr with rfl | rfl | rfl | rfl <;> decide
  · intro r hr
    have hidx : jsIndexOf rates r = -1 := jsIndexOf_eq_neg_one rates r hr
    rw [← half_eq_div]
    simp only [cyclePlaybackRate, hidx]
    decide

/-- Witness for C7: the rate 1 is in the set and cycles back to itself in
four steps; the rate 3 is outside the set and cycles to one half. -/
theorem c7_witness :
    ((1 : ℚ) ∈ rates ∧ (3 : ℚ) ∉ rates)
    ∧ cyclePlaybackRate (cyclePlaybackRate (cyclePlaybackRate (cyclePlaybackRate 1))) = 1
    ∧ cyclePlaybackRate 3 = 1 / 2 :=
  ⟨⟨List.mem_cons_of_mem _ (List.mem_cons_self _ _), by decide⟩,
   c7_cycle_rate.2.1 1 (List.mem_cons_of_mem _ (List.mem_cons_self _ _)),
   c7_cycle_rate.2.2 3 (by decide)⟩

/-- C8: from any unmuted state, muting forces the effective volume
applied to the media element to 0 without changing the stored volume,
and muting then unmuting restores exactly the stored volume. -/
theorem c8_mute_roundtrip :
    ∀ (tl : Option (List Timecode)) (s : PlayerState), s.isMuted = false →
      effectiveVolume ((step tl s Ev.muteClick).1) = 0
      ∧ ((step tl s Ev.muteClick).1).volume = s.volume
      ∧ ((step tl ((step tl s Ev.muteClick).1) Ev.muteClick).1).isMuted = false
      ∧ effectiveVolume ((step tl ((step tl s Ev.muteClick).1) Ev.muteClick).1) = s.volume := by
  intro tl s h
  simp [step, effectiveVolume, h]

/-- Witness for C8: the spec's example with stored volume 2/5 (0.4),
initially unmuted; mute then unmute reads back exactly 2/5. -/
theorem c8_witness :
    ({ initialState with volume := 2 / 5 } : PlayerState).isMuted = false
    ∧ effectiveVolume ((step none { initialState with volume := 2 / 5 } Ev.muteClick).1) = 0
    ∧ effectiveVolume
        ((step none ((step none { initialState with volume := 2 / 5 } Ev.muteClick).1)
          Ev.muteClick).1)
        = ({ initialState with volume := 2 / 5 } : PlayerState).volume :=
  ⟨rfl,
   (c8_mute_roundtrip none { initialState with volume := 2 / 5 } rfl).1,
   (c8_mute_roundtrip none { initialState with volume := 2 / 5 } rfl).2.2.2⟩

/-- C9 as amended: the spacebar fires the toggle exactly when the focus
target's tag name is neither INPUT nor TEXTAREA; the suppression is this
fixed tag enumeration, not the capability of accepting text input. -/
theorem c9_keypress_amended :
    ∀ (e : KeyEvent) (p : Bool),
      (e.key = " " → e.target.tagName ≠ "INPUT" → e.target.tagName ≠ "TEXTAREA" →
        onKeyPress e p = togglePlay p)
      ∧ ((e.target.tagName = "INPUT" ∨ e.target.tagName = "TEXTAREA") →
        onKeyPress e p = [])
      ∧ (e.key ≠ " " → onKeyPress e p = []) := by
  intro e p
  refine ⟨?_, ?_, ?_⟩
  · intro hk h1 h2
    simp [onKeyPress, hk, h1, h2]
  · intro h
    rcases h with h | h <;> simp [onKeyPress, h]
  · intro h
    simp [onKeyPress, h]

/-- Counterexample for C9 as stated: a focus target that does accept
text input (a contenteditable DIV) fails to suppress the toggle, because
the code checks the tag name, not the capability; the rule modelled from
the spec's words disagrees with the code on this input. -/
theorem c9_counterexample :
    (⟨⟨"DIV", true⟩, " "⟩ : KeyEvent).target.acceptsTextInput = true
    ∧ onKeyPress ⟨⟨"DIV", true⟩, " "⟩ false = [Cmd.play]
    ∧ keyToggleSpecRule ⟨⟨"DIV", true⟩, " "⟩ false = []
    ∧ onKeyPress ⟨⟨"DIV", true⟩, " "⟩ false
        ≠ keyToggleSpecRule ⟨⟨"DIV", true⟩, " "⟩ false :=
  ⟨rfl, by decide, by decide, by decide⟩

/-- Witness for C9: a spacebar press on a plain DIV target fires the
toggle. -/
theorem c9_witness :
    ((⟨⟨"DIV", false⟩, " "⟩ : KeyEvent).key = " "
      ∧ (⟨⟨"DIV", false⟩, " "⟩ : KeyEvent).target.tagName ≠ "INPUT"
      ∧ (⟨⟨"DIV", false⟩, " "⟩ : KeyEvent).target.tagName ≠ "TEXTAREA")
    ∧ onKeyPress ⟨⟨"DIV", false⟩, " "⟩ true = togglePlay true :=
  ⟨⟨rfl, by decide, by decide⟩,
   (c9_keypress_amended ⟨⟨"DIV", false⟩, " "⟩ true).1 rfl (by decide) (by decide)⟩

/-- C10: clicking the video surface dispatches exactly the handler of the
play/pause button: pause is issued when the confirmed isPlaying flag is
true, play otherwise, the click leaves the state unchanged, and the flag
itself changes only when the media element's play or pause event fires. -/
theorem c10_click_toggle :
    ∀ (tl : Option (List Timecode)) (s : PlayerState),
      step tl s Ev.videoClick = step tl s Ev.playButtonClick
      ∧ (s.isPlaying = true → (step tl s Ev.videoClick).2 = [Cmd.pause])
      ∧ (s.isPlaying = false → (step tl s Ev.videoClick).2 = [Cmd.play])
      ∧ (step tl s Ev.videoClick).1 = s
      ∧ ((step tl s Ev.playEvt).1).isPlaying = true
      ∧ ((step tl s Ev.pauseEvt).1).isPlaying = false := by
  intro tl s
  refine ⟨rfl, ?_, ?_, rfl, rfl, rfl⟩
  · intro h
    simp [step, togglePlay, h]
  · intro h
    simp [step, togglePlay, h]

/-- Witness for C10: in the initial (paused) state a click on the video
surface issues the play command. -/
theorem c10_witness :
    initialState.isPlaying = false
    ∧ (step none initialState Ev.videoClick).2 = [Cmd.play] :=
  ⟨rfl, (c10_click_toggle none initialState).2.2.1 rfl⟩
